import Mathlib

/-!
Shallow embedding of src/what.py (PDF article-number finder): pure Lean
models of extract_article_numbers, find_matching_descriptions and
save_to_pdf, with theorems about the specified properties.

Modelling conventions:
- a line / piece of text is a list of characters (Str);
- a page is an Except Unit Str: error models a page whose text extraction
  raises; the empty string models a page with no text (the source treats
  None and the empty string alike through the falsiness test on line 44);
- a PDF file pairs a file name with an Except Unit (List Page); error
  models a file that PdfReader cannot open;
- Python sets are modelled as duplicate-free lists; where the source
  iterates a set, the model takes the iteration order as the list order;
- regular expressions are modelled at the character level; the regex word
  class (letters, digits, underscore) is modelled over ASCII.
-/

deriving instance DecidableEq for Except

namespace WhatPy

abbrev Str := List Char

/-- Membership of a character in the regex word class (ASCII model). -/
def isWordChar (c : Char) : Bool := c.isAlphanum || c == '_'

/-- True when position i of cs holds a word character. -/
def wordAt (cs : Str) (i : Nat) : Bool :=
  match cs.get? i with
  | some c => isWordChar c
  | none => false

/-- True when position i of cs holds a digit. -/
def digitAt (cs : Str) (i : Nat) : Bool :=
  match cs.get? i with
  | some c => c.isDigit
  | none => false

/-- Substring of cs of length n starting at index i. -/
def sub (cs : Str) (i n : Nat) : Str := (cs.drop i).take n

/-- Models a regex match of the pattern pat wrapped in word boundaries,
anchored at position i, for a pattern made entirely of word characters
(the article numbers interpolated on line 54 of the source are digit
strings): the text at i equals pat, and pat is not flanked by word
characters. -/
def boundedAt (pat cs : Str) (i : Nat) : Bool :=
  sub cs i pat.length == pat && (i == 0 || !wordAt cs (i - 1)) &&
    !wordAt cs (i + pat.length)

/-- Models the test on line 54 of the source: re.search of the article
number wrapped in word boundaries succeeds somewhere in the line. -/
def reSearchBounded (pat cs : Str) : Bool :=
  (List.range (cs.length + 1)).any (fun i => boundedAt pat cs i)

/-- Position i of cs starts a match of the extraction pattern of lines 22
and 94 of the source: the digit 1, five more digits, both ends on a word
boundary. -/
def articleAt (cs : Str) (i : Nat) : Bool :=
  match sub cs i 6 with
  | [c0, c1, c2, c3, c4, c5] =>
      c0 == '1' && c1.isDigit && c2.isDigit && c3.isDigit && c4.isDigit &&
        c5.isDigit && (i == 0 || !wordAt cs (i - 1)) && !wordAt cs (i + 6)
  | _ => false

/-- Position i of cs starts a match of the sort-key pattern of lines 87
and 105 of the source: six digits, both ends on a word boundary. -/
def sixDigitAt (cs : Str) (i : Nat) : Bool :=
  match sub cs i 6 with
  | [c0, c1, c2, c3, c4, c5] =>
      c0.isDigit && c1.isDigit && c2.isDigit && c3.isDigit && c4.isDigit &&
        c5.isDigit && (i == 0 || !wordAt cs (i - 1)) && !wordAt cs (i + 6)
  | _ => false

/-- Models re.findall of the article pattern on a line (lines 22 and 94):
matches of this pattern can never overlap, so findall returns exactly the
matched substring at every anchoring position, left to right. -/
def findArticleTokens (cs : Str) : List Str :=
  ((List.range cs.length).filter (fun i => articleAt cs i)).map (fun i => sub cs i 6)

/-- Models re.search of the six-digit sort-key pattern (lines 87 and 105):
the leftmost bounded six-digit run of the line, when one exists. -/
def searchSixDigit (cs : Str) : Option Str :=
  (((List.range cs.length).filter (fun i => sixDigitAt cs i)).head?).map
    (fun i => sub cs i 6)

/-- Characters stripped by Python str.strip with no argument. -/
def isPySpace (c : Char) : Bool :=
  c == ' ' || c == '\t' || c == '\n' || c == '\r' || c == '\x0b' || c == '\x0c'

/-- Models Python str.strip (line 55 of the source). -/
def pyStrip (cs : Str) : Str :=
  ((cs.dropWhile isPySpace).reverse.dropWhile isPySpace).reverse

/-- Models Python str.lower (ASCII model, line 37 of the source). -/
def pyLower (cs : Str) : Str := cs.map Char.toLower

/-- Models Python str.endswith (line 37 of the source). -/
def strEndsWith (cs suffix : Str) : Bool :=
  cs.drop (cs.length - suffix.length) == suffix

/-- Models Python str.split on a newline (lines 19 and 48 of the source). -/
def splitLines : Str → List Str
  | [] => [[]]
  | c :: rest =>
    if c = '\n' then [] :: splitLines rest
    else
      match splitLines rest with
      | l :: ls => (c :: l) :: ls
      | [] => [[c]]

/-- Models Python int on a string of digits (lines 88 and 111). -/
def strToNat (cs : Str) : Nat :=
  cs.foldl (fun n c => n * 10 + (c.toNat - '0'.toNat)) 0

/-- Models Python set.add on the duplicate-free-list model of a set. -/
def setAdd (s : List Str) (x : Str) : List Str := if x ∈ s then s else s ++ [x]

/-- Models Python set.update on the duplicate-free-list model of a set. -/
def setUpdate (s : List Str) (xs : List Str) : List Str := xs.foldl setAdd s

/-- The outcome of extracting a page's text: error models a raising
extraction, and the empty string a page with no usable text. -/
abbrev Page := Except Unit Str

/-- A file in the scanned folder: its name and the outcome of opening it
with PdfReader (error models an unreadable file). -/
structure PdfFile where
  name : Str
  content : Except Unit (List Page)

/-- The accumulator of extract_article_numbers over one line (line 22 and
23 of the source): update the set with the article tokens of the line. -/
def extractLine (acc : List Str) (line : Str) : List Str :=
  setUpdate acc (findArticleTokens line)

/-- The accumulator of extract_article_numbers over one page text (lines
19 to 23 of the source). -/
def extractText (acc : List Str) (t : Str) : List Str :=
  (splitLines t).foldl extractLine acc

/-- The page loop of extract_article_numbers (lines 14 to 23): a raising
page propagates the error, a page with no text is skipped. -/
def extractPages : List Str → List Page → Except Unit (List Str)
  | acc, [] => .ok acc
  | _, .error _ :: _ => .error ()
  | acc, .ok t :: rest =>
    if t.isEmpty then extractPages acc rest
    else extractPages (extractText acc t) rest

/-- Models extract_article_numbers (lines 7 to 25 of the source); the
argument is the outcome of opening the source document. -/
def extract_article_numbers (doc : Except Unit (List Page)) : Except Unit (List Str) :=
  match doc with
  | .error _ => .error ()
  | .ok pages => extractPages [] pages

/-- The state threaded through find_matching_descriptions: the list of
matched lines and the set (duplicate-free list) of found article numbers. -/
structure ScanState where
  «matches» : List Str
  found : List Str
deriving Repr, DecidableEq

/-- The inner identifier loop of find_matching_descriptions on one line
(lines 49 to 57 of the source): scan the article numbers in iteration
order, skip the ones already found, and on the first bounded match record
the stripped line, mark the number found and stop. -/
def scanLineNums (line : Str) : ScanState → List Str → ScanState
  | s, [] => s
  | s, n :: rest =>
    if n ∈ s.found then scanLineNums line s rest
    else if reSearchBounded n line then
      { «matches» := s.«matches» ++ [pyStrip line], found := setAdd s.found n }
    else scanLineNums line s rest

/-- The line loop of find_matching_descriptions over one page text (lines
48 to 61 of the source), with the early exit of lines 60 and 61 once the
found set has the size of the article-number set. -/
def scanLines (order : List Str) (total : Nat) : ScanState → List Str → ScanState
  | s, [] => s
  | s, l :: rest =>
    let s' := scanLineNums l s order
    if s'.found.length = total then s' else scanLines order total s' rest

/-- The page loop of find_matching_descriptions over one document (lines
42 to 61 of the source): a raising page propagates the error, a page with
no text is skipped. The source has no early exit at this level: every
remaining page still has its text extracted. -/
def scanPages (order : List Str) (total : Nat) : ScanState → List Page → Except Unit ScanState
  | s, [] => .ok s
  | _, .error _ :: _ => .error ()
  | s, .ok t :: rest =>
    if t.isEmpty then scanPages order total s rest
    else scanPages order total (scanLines order total s (splitLines t)) rest

/-- The file-name filter of line 37 of the source: lower-cased name ends
in .pdf and the name differs from the source document's name. -/
def isCandidate (name source : Str) : Bool :=
  strEndsWith (pyLower name) ".pdf".data && name != source

/-- The document loop of find_matching_descriptions (lines 36 to 65 of
the source), with the early exit of lines 64 and 65 after each scanned
document. An unreadable document propagates the error. -/
def scanDocs (order : List Str) (total : Nat) (source : Str) :
    ScanState → List PdfFile → Except Unit ScanState
  | s, [] => .ok s
  | s, d :: rest =>
    if isCandidate d.name source then
      match d.content with
      | .error _ => .error ()
      | .ok pages =>
        match scanPages order total s pages with
        | .error _ => .error ()
        | .ok s' =>
          if s'.found.length = total then .ok s'
          else scanDocs order total source s' rest
    else scanDocs order total source s rest

/-- Models find_matching_descriptions (lines 27 to 67 of the source). The
article-number set is passed as its iteration order; the length of that
list models the set size used by the early-exit tests. -/
def find_matching_descriptions (article_numbers : List Str) (folder : List PdfFile)
    (source_pdf_name : Str) : Except Unit (List Str × List Str) :=
  match scanDocs article_numbers article_numbers.length source_pdf_name
      { «matches» := [], found := [] } folder with
  | .error _ => .error ()
  | .ok s => .ok (s.«matches», s.found)

/-- Models get_article_number (lines 86 to 88 of the source): the numeric
value of the first bounded six-digit run of the line; none models the
infinite key given to a line without such a run. -/
def get_article_number (line : Str) : Option Nat :=
  (searchSixDigit line).map strToNat

/-- The sort order of line 100 of the source, on the keys of
get_article_number, where no key sorts last. -/
def keyLeB (a b : Str) : Bool :=
  match get_article_number a, get_article_number b with
  | _, none => true
  | none, some _ => false
  | some n, some m => n ≤ m

/-- Propositional form of the report sort order. -/
def keyLe (a b : Str) : Prop := keyLeB a b = true

instance : DecidableRel keyLe := fun a b => instDecidableEqBool _ _

instance : IsTotal Str keyLe := by
  constructor
  intro a b
  unfold keyLe keyLeB
  cases get_article_number a <;> cases get_article_number b <;>
    simp [decide_eq_true_eq] <;> omega

instance : IsTrans Str keyLe := by
  constructor
  intro a b c
  unfold keyLe keyLeB
  cases get_article_number a <;> cases get_article_number b <;>
    cases get_article_number c <;> simp [decide_eq_true_eq] <;> omega

/-- The sort order of line 111 of the source: ascending numeric value. -/
def intLe (a b : Str) : Prop := strToNat a ≤ strToNat b

instance : DecidableRel intLe := fun _ _ => Nat.decLe _ _

instance : IsTotal Str intLe := ⟨fun a b => Nat.le_total _ _⟩

instance : IsTrans Str intLe := ⟨fun _ _ _ => Nat.le_trans⟩

/-- The filter of lines 90 to 98 of the source: keep a matched line only
when every article token embedded in it is in the found set. -/
def filtered_matches («matches» found_articles : List Str) : List Str :=
  «matches».filter (fun line =>
    (findArticleTokens line).all (fun n => decide (n ∈ found_articles)))

/-- The sorted report body of line 100 of the source. -/
def sorted_matches («matches» found_articles : List Str) : List Str :=
  List.insertionSort keyLe (filtered_matches «matches» found_articles)

/-- The matched-number set of lines 102 to 107 of the source: the first
bounded six-digit run of each sorted line, collected into a set. -/
def matched_numbers (sorted : List Str) : List Str :=
  sorted.foldl (fun acc line =>
    match searchSixDigit line with
    | some t => setAdd acc t
    | none => acc) []

/-- The text that line 132 of the source puts before each unmatched number. -/
def notFoundLabel : Str := "NOT FOUND: ".data

/-- The observable outcome of save_to_pdf: pdfBody models the matched
lines written to the document in order (line 119 to 121 of the source),
pdfNotFound the red cells of lines 124 to 132, not_found the module
global assigned on lines 110 and 111, and ret the value returned by the
function on line 135 (the output path only). -/
structure SaveResult where
  pdfBody : List Str
  pdfNotFound : List Str
  not_found : List Str
  ret : Str
deriving Repr, DecidableEq

/-- Models save_to_pdf (lines 69 to 135 of the source). -/
def save_to_pdf («matches» article_numbers found_articles : List Str)
    (output_path : Str) : SaveResult :=
  let sm := sorted_matches «matches» found_articles
  let mn := matched_numbers sm
  let nf := List.insertionSort intLe (article_numbers.filter (fun x => !(decide (x ∈ mn))))
  { pdfBody := sm
    pdfNotFound := nf.map (fun x => notFoundLabel ++ x)
    not_found := nf
    ret := output_path }

/-- The whole core pipeline as invoked by main (lines 163 to 166 of the
source): match against the folder, then build the report. -/
def pipeline (article_numbers : List Str) (folder : List PdfFile)
    (source_pdf_name output_path : Str) : Except Unit SaveResult :=
  match find_matching_descriptions article_numbers folder source_pdf_name with
  | .error _ => .error ()
  | .ok (m, f) => .ok (save_to_pdf m article_numbers f output_path)

/-- True for a page whose text extraction raises. -/
def isErrorPage : Page → Bool
  | .error _ => true
  | .ok _ => false

/-- The lines a page contributes to the scan (none for a raising page). -/
def pageLines : Page → List Str
  | .ok t => splitLines t
  | .error _ => []

/-- The lines a file of the folder contributes to the scan. -/
def fileLines (d : PdfFile) : List Str :=
  match d.content with
  | .ok ps => (ps.map pageLines).flatten
  | .error _ => []

/-- All lines of all files of the folder. -/
def folderLines (folder : List PdfFile) : List Str :=
  (folder.map fileLines).flatten

/-- Written from the claim's words, not from the source, for comparison
with the source's extraction pattern: position i starts the digit 1 and
five more digits, bounded by non-digit characters or the ends of the
line. -/
def claimDigitBoundedAt (cs : Str) (i : Nat) : Bool :=
  match sub cs i 6 with
  | [c0, c1, c2, c3, c4, c5] =>
      c0 == '1' && c1.isDigit && c2.isDigit && c3.isDigit && c4.isDigit &&
        c5.isDigit && (i == 0 || !digitAt cs (i - 1)) && !digitAt cs (i + 6)
  | _ => false

/-- Written from the claim's words, not from the source: the tokens of a
line under the non-digit-boundary reading of the claim. -/
def claimTokens (cs : Str) : List Str :=
  ((List.range cs.length).filter (fun i => claimDigitBoundedAt cs i)).map
    (fun i => sub cs i 6)

/-- Strict-or-equal numeric order on identifier strings, used to transfer
sortedness between permutations with injective numeric keys. -/
def intLt' (a b : Str) : Prop := strToNat a < strToNat b ∨ a = b

instance : IsAntisymm Str intLt' := by
  constructor
  rintro a b (h1 | rfl) (h2 | h2)
  · exact absurd h2 (Nat.lt_asymm h1)
  · exact h2.symm
  · rfl
  · rfl

/-! Basic lemmas about the set model. -/

theorem mem_setAdd {s : List Str} {x y : Str} : y ∈ setAdd s x ↔ y ∈ s ∨ y = x := by
  unfold setAdd
  split
  · rename_i h
    constructor
    · exact Or.inl
    · rintro (hy | rfl)
      · exact hy
      · exact h
  · simp

theorem subset_setAdd (s : List Str) (x : Str) : s ⊆ setAdd s x :=
  fun _ ha => mem_setAdd.mpr (Or.inl ha)

theorem nodup_setAdd {s : List Str} (h : s.Nodup) (x : Str) : (setAdd s x).Nodup := by
  unfold setAdd
  split
  · exact h
  · rename_i hx
    simpa [List.nodup_append] using ⟨h, fun hmem => hx hmem⟩

theorem mem_setUpdate {s xs : List Str} {y : Str} :
    y ∈ setUpdate s xs ↔ y ∈ s ∨ y ∈ xs := by
  induction xs generalizing s with
  | nil => simp [setUpdate]
  | cons x rest ih =>
    unfold setUpdate at ih ⊢
    rw [List.foldl_cons, ih, mem_setAdd]
    constructor
    · rintro ((hs | rfl) | hr)
      · exact Or.inl hs
      · exact Or.inr (List.mem_cons_self _ _)
      · exact Or.inr (List.mem_cons_of_mem _ hr)
    · rintro (hs | hx)
      · exact Or.inl (Or.inl hs)
      · rcases List.mem_cons.mp hx with rfl | hr
        · exact Or.inl (Or.inr rfl)
        · exact Or.inr hr

theorem nodup_setUpdate {s : List Str} (h : s.Nodup) (xs : List Str) :
    (setUpdate s xs).Nodup := by
  induction xs generalizing s with
  | nil => exact h
  | cons x rest ih => exact ih (nodup_setAdd h x)

/-! Lemmas about the identifier loop on one line. -/

theorem scanLineNums_found_mono (line : Str) (s : ScanState) (l : List Str) :
    s.found ⊆ (scanLineNums line s l).found := by
  induction l generalizing s with
  | nil => exact fun _ h => h
  | cons n rest ih =>
    simp only [scanLineNums]
    split
    · exact ih s
    · split
      · exact subset_setAdd s.found n
      · exact ih s

theorem scanLineNums_found_sub (line : Str) (s : ScanState) (l : List Str) :
    ∀ x ∈ (scanLineNums line s l).found, x ∈ s.found ∨ x ∈ l := by
  induction l generalizing s with
  | nil => exact fun x hx => Or.inl hx
  | cons n rest ih =>
    simp only [scanLineNums]
    split
    · intro x hx
      rcases ih s x hx with h | h
      · exact Or.inl h
      · exact Or.inr (List.mem_cons_of_mem _ h)
    · split
      · intro x hx
        rcases mem_setAdd.mp hx with h | rfl
        · exact Or.inl h
        · exact Or.inr (List.mem_cons_self _ _)
      · intro x hx
        rcases ih s x hx with h | h
        · exact Or.inl h
        · exact Or.inr (List.mem_cons_of_mem _ h)

/-- Closed form of the identifier loop: it acts on the first article
number of the iteration order that is not yet found and matches the
line. -/
theorem scanLineNums_eq (line : Str) (s : ScanState) (l : List Str) :
    scanLineNums line s l =
      match (l.filter (fun n => !decide (n ∈ s.found) && reSearchBounded n line)).head? with
      | some n => { «matches» := s.«matches» ++ [pyStrip line], found := setAdd s.found n }
      | none => s := by
  induction l with
  | nil => rfl
  | cons n rest ih =>
    by_cases h1 : n ∈ s.found
    · simp [scanLineNums, h1, List.filter_cons, ih]
    · by_cases h2 : reSearchBounded n line
      · simp [scanLineNums, h1, h2, List.filter_cons]
      · simp [scanLineNums, h1, h2, List.filter_cons, ih]

/-! Lemmas about the line, page and document loops. -/

theorem scanLines_found_mono (order : List Str) (total : Nat) (s : ScanState)
    (lines : List Str) : s.found ⊆ (scanLines order total s lines).found := by
  induction lines generalizing s with
  | nil => exact fun _ h => h
  | cons l rest ih =>
    simp only [scanLines]
    split
    · exact scanLineNums_found_mono l s order
    · exact fun x hx => ih _ (scanLineNums_found_mono l s order hx)

theorem scanLines_found_sub (order : List Str) (total : Nat) (s : ScanState)
    (lines : List Str) :
    ∀ x ∈ (scanLines order total s lines).found, x ∈ s.found ∨ x ∈ order := by
  induction lines generalizing s with
  | nil => exact fun x hx => Or.inl hx
  | cons l rest ih =>
    simp only [scanLines]
    split
    · exact scanLineNums_found_sub l s order
    · intro x hx
      rcases ih _ x hx with h | h
      · exact scanLineNums_found_sub l s order x h
      · exact Or.inr h

theorem scanPages_found_mono (order : List Str) (total : Nat) (s s' : ScanState)
    (pages : List Page) (h : scanPages order total s pages = .ok s') :
    s.found ⊆ s'.found := by
  induction pages generalizing s with
  | nil =>
    simp only [scanPages, Except.ok.injEq] at h
    exact h ▸ fun _ hx => hx
  | cons p rest ih =>
    match p with
    | .error e => simp [scanPages] at h
    | .ok t =>
      simp only [scanPages] at h
      split at h
      · exact ih s h
      · exact fun x hx => ih _ h (scanLines_found_mono order total s _ hx)

theorem scanPages_found_sub (order : List Str) (total : Nat) (s s' : ScanState)
    (pages : List Page) (h : scanPages order total s pages = .ok s') :
    ∀ x ∈ s'.found, x ∈ s.found ∨ x ∈ order := by
  induction pages generalizing s with
  | nil =>
    simp only [scanPages, Except.ok.injEq] at h
    exact h ▸ fun x hx => Or.inl hx
  | cons p rest ih =>
    match p with
    | .error e => simp [scanPages] at h
    | .ok t =>
      simp only [scanPages] at h
      split at h
      · exact ih s h
      · intro x hx
        rcases ih _ h x hx with hm | hm
        · exact scanLines_found_sub order total s _ x hm
        · exact Or.inr hm

theorem scanDocs_found_mono (order : List Str) (total : Nat) (source : Str)
    (s s' : ScanState) (folder : List PdfFile)
    (h : scanDocs order total source s folder = .ok s') : s.found ⊆ s'.found := by
  induction folder generalizing s with
  | nil =>
    simp only [scanDocs, Except.ok.injEq] at h
    exact h ▸ fun _ hx => hx
  | cons d rest ih =>
    simp only [scanDocs] at h
    split at h
    · rcases hd : d.content with e | pages
      · simp only [hd] at h
        exact absurd h (by simp)
      · simp only [hd] at h
        rcases hp : scanPages order total s pages with e | s1
        · simp only [hp] at h
          exact absurd h (by simp)
        · simp only [hp] at h
          split at h
          · cases h
            exact scanPages_found_mono order total s _ pages hp
          · exact fun x hx => ih _ h (scanPages_found_mono order total s _ pages hp hx)
    · exact ih s h

theorem scanDocs_found_sub (order : List Str) (total : Nat) (source : Str)
    (s s' : ScanState) (folder : List PdfFile)
    (h : scanDocs order total source s folder = .ok s') :
    ∀ x ∈ s'.found, x ∈ s.found ∨ x ∈ order := by
  induction folder generalizing s with
  | nil =>
    simp only [scanDocs, Except.ok.injEq] at h
    exact h ▸ fun x hx => Or.inl hx
  | cons d rest ih =>
    simp only [scanDocs] at h
    split at h
    · rcases hd : d.content with e | pages
      · simp only [hd] at h
        exact absurd h (by simp)
      · simp only [hd] at h
        rcases hp : scanPages order total s pages with e | s1
        · simp only [hp] at h
          exact absurd h (by simp)
        · simp only [hp] at h
          split at h
          · cases h
            exact scanPages_found_sub order total s _ pages hp
          · intro x hx
            rcases ih _ h x hx with hm | hm
            · exact scanPages_found_sub order total s _ pages hp x hm
            · exact Or.inr hm
    · exact ih s h

/-! Early-exit lemmas for the matcher. -/

theorem scanLineNums_noop (line : Str) (s : ScanState) (l : List Str)
    (h : ∀ n ∈ l, n ∈ s.found) : scanLineNums line s l = s := by
  induction l with
  | nil => rfl
  | cons n rest ih =>
    have hn := h n (List.mem_cons_self _ _)
    simp only [scanLineNums, if_pos hn]
    exact ih (fun m hm => h m (List.mem_cons_of_mem _ hm))

theorem scanLines_noop (order : List Str) (total : Nat) (s : ScanState)
    (lines : List Str) (h : ∀ n ∈ order, n ∈ s.found) :
    scanLines order total s lines = s := by
  induction lines with
  | nil => rfl
  | cons l rest ih =>
    simp only [scanLines, scanLineNums_noop l s order h]
    split
    · rfl
    · exact ih

theorem scanPages_of_found_all (order : List Str) (total : Nat) (s : ScanState)
    (pages : List Page) (h : ∀ n ∈ order, n ∈ s.found) :
    scanPages order total s pages =
      if pages.any isErrorPage then .error () else .ok s := by
  induction pages with
  | nil => rfl
  | cons p rest ih =>
    match p with
    | .error e => simp [scanPages, isErrorPage]
    | .ok t =>
      simp only [scanPages]
      split
      · simpa [isErrorPage] using ih
      · rw [scanLines_noop order total s _ h]
        simpa [isErrorPage] using ih

theorem scanLines_append_of_complete (order : List Str) (total : Nat) :
    ∀ (l1 l2 : List Str) (s : ScanState), s.found.length ≠ total →
      (scanLines order total s l1).found.length = total →
      scanLines order total s (l1 ++ l2) = scanLines order total s l1 := by
  intro l1
  induction l1 with
  | nil =>
    intro l2 s hs hc
    exact absurd hc hs
  | cons l rest ih =>
    intro l2 s hs hc
    simp only [scanLines, List.cons_append] at hc ⊢
    by_cases hif : (scanLineNums l s order).found.length = total
    · simp only [if_pos hif]
    · simp only [if_neg hif] at hc ⊢
      exact ih l2 _ hif hc

theorem scanDocs_append_of_incomplete (order : List Str) (total : Nat) (source : Str) :
    ∀ (d1 d2 : List PdfFile) (s s1 : ScanState), s.found.length ≠ total →
      scanDocs order total source s d1 = .ok s1 → s1.found.length = total →
      scanDocs order total source s (d1 ++ d2) = .ok s1 := by
  intro d1
  induction d1 with
  | nil =>
    intro d2 s s1 hs h hc
    simp only [scanDocs, Except.ok.injEq] at h
    exact absurd (h ▸ hc) hs
  | cons d rest ih =>
    intro d2 s s1 hs h hc
    rw [List.cons_append]
    simp only [scanDocs] at h ⊢
    by_cases hcand : isCandidate d.name source = true
    · simp only [if_pos hcand] at h ⊢
      rcases hd : d.content with e | pages
      · simp only [hd] at h
        exact absurd h (by simp)
      · simp only [hd] at h ⊢
        rcases hp : scanPages order total s pages with e | sp
        · simp only [hp] at h
          exact absurd h (by simp)
        · simp only [hp] at h ⊢
          by_cases hif : sp.found.length = total
          · simp only [if_pos hif] at h ⊢
            exact h
          · simp only [if_neg hif] at h ⊢
            exact ih d2 sp s1 hif h hc
    · simp only [if_neg hcand] at h ⊢
      exact ih d2 s s1 hs h hc

/-- C1 (counterexample): with the single identifier 100001 found on the
first page of the first document, a raising second page of that same
document still makes the matcher raise, although the claim says nothing
not yet visited can raise once all identifiers are found; without that
page the same scan succeeds. -/
theorem C1_counterexample :
    find_matching_descriptions ["100001".data]
        [⟨"a.pdf".data, .ok [.ok ("100001 widget".data), .error ()]⟩]
        "main_pdf.pdf".data = .error () ∧
    find_matching_descriptions ["100001".data]
        [⟨"a.pdf".data, .ok [.ok ("100001 widget".data)]⟩]
        "main_pdf.pdf".data = .ok (["100001 widget".data], ["100001".data]) := by
  decide

/-- C1 (amended): as soon as the found set reaches the size of the
identifier set, the matcher stops scanning lines within the current page
and stops scanning further documents, so a document after the completing
one never affects the result and never raises; but the remaining pages of
the current document are still text-extracted: their readable content
never changes the result, while a raising page among them still raises. -/
theorem C1_matcher_early_exit :
    (∀ (order : List Str) (folder1 folder2 : List PdfFile) (source : Str)
        (m f : List Str), order ≠ [] →
        find_matching_descriptions order folder1 source = .ok (m, f) →
        f.length = order.length →
        find_matching_descriptions order (folder1 ++ folder2) source = .ok (m, f)) ∧
    (∀ (order : List Str) (total : Nat) (s : ScanState) (pages : List Page),
        (∀ n ∈ order, n ∈ s.found) →
        scanPages order total s pages =
          if pages.any isErrorPage then .error () else .ok s) ∧
    (∀ (order : List Str) (total : Nat) (l1 l2 : List Str) (s : ScanState),
        s.found.length ≠ total →
        (scanLines order total s l1).found.length = total →
        scanLines order total s (l1 ++ l2) = scanLines order total s l1) := by
  refine ⟨?_, scanPages_of_found_all, scanLines_append_of_complete⟩
  intro order folder1 folder2 source m f hne h hf
  unfold find_matching_descriptions at h ⊢
  rcases hs : scanDocs order order.length source { «matches» := [], found := [] } folder1
    with e | s0
  · rw [hs] at h
    exact absurd h (by simp)
  · rw [hs] at h
    simp only [Except.ok.injEq, Prod.mk.injEq] at h
    obtain ⟨hm, hfe⟩ := h
    have h0 : (ScanState.found { «matches» := [], found := [] }).length ≠ order.length := by
      simpa using fun habs => hne (List.eq_nil_of_length_eq_zero habs.symm)
    have happ := scanDocs_append_of_incomplete order order.length source folder1 folder2
      _ s0 h0 hs (by rw [hfe]; exact hf)
    rw [happ]
    simp [hm, hfe]

/-- C1 (witness): the document-level early exit at a concrete input where
an unreadable second document is never reached, and the page-level no-op
at a concrete completed state. -/
theorem C1_matcher_early_exit_witness :
    find_matching_descriptions ["100001".data]
        ([⟨"a.pdf".data, .ok [.ok ("100001 widget".data)]⟩] ++ [⟨"b.pdf".data, .error ()⟩])
        "main_pdf.pdf".data = .ok (["100001 widget".data], ["100001".data]) ∧
    scanPages ["100001".data] 1 { «matches» := [], found := ["100001".data] }
        [.ok "nothing here".data] =
      .ok { «matches» := [], found := ["100001".data] } := by
  constructor
  · exact C1_matcher_early_exit.1 ["100001".data]
      [⟨"a.pdf".data, .ok [.ok ("100001 widget".data)]⟩] [⟨"b.pdf".data, .error ()⟩]
      "main_pdf.pdf".data ["100001 widget".data] ["100001".data]
      (by decide) (by decide) (by decide)
  · have h := C1_matcher_early_exit.2.1 ["100001".data] 1
      { «matches» := [], found := ["100001".data] } [.ok "nothing here".data]
      (by decide)
    simpa using h

/-- C8: the found set is monotone at every level of the matcher's
execution (the identifier loop, the line loop, the page loop and the
document loop never remove an element), and the found set returned by the
matcher only contains identifiers of the input identifier set. -/
theorem C8_found_set_invariant :
    (∀ (line : Str) (s : ScanState) (l : List Str),
        s.found ⊆ (scanLineNums line s l).found) ∧
    (∀ (order : List Str) (total : Nat) (s : ScanState) (lines : List Str),
        s.found ⊆ (scanLines order total s lines).found) ∧
    (∀ (order : List Str) (total : Nat) (s s' : ScanState) (pages : List Page),
        scanPages order total s pages = .ok s' → s.found ⊆ s'.found) ∧
    (∀ (order : List Str) (total : Nat) (source : Str) (s s' : ScanState)
        (folder : List PdfFile),
        scanDocs order total source s folder = .ok s' → s.found ⊆ s'.found) ∧
    (∀ (order : List Str) (folder : List PdfFile) (source : Str) (m f : List Str),
        find_matching_descriptions order folder source = .ok (m, f) → f ⊆ order) := by
  refine ⟨scanLineNums_found_mono, scanLines_found_mono, scanPages_found_mono,
    scanDocs_found_mono, ?_⟩
  intro order folder source m f h
  unfold find_matching_descriptions at h
  rcases hs : scanDocs order order.length source { «matches» := [], found := [] } folder
    with e | s0
  · rw [hs] at h
    exact absurd h (by simp)
  · rw [hs] at h
    simp only [Except.ok.injEq, Prod.mk.injEq] at h
    intro x hx
    rcases scanDocs_found_sub order order.length source _ s0 folder hs x
        (h.2 ▸ hx) with hm | hm
    · exact absurd hm (List.not_mem_nil x)
    · exact hm

/-- C8 (witness): the invariant applied at a concrete scan. -/
theorem C8_found_set_invariant_witness :
    (["100001".data] : List Str) ⊆ ["100001".data, "100002".data] := by
  exact C8_found_set_invariant.2.2.2.2 ["100001".data, "100002".data]
    [⟨"a.pdf".data, .ok [.ok ("100001 widget".data)]⟩] "main_pdf.pdf".data
    ["100001 widget".data] ["100001".data] (by decide)

/-! Word boundaries versus digit boundaries. -/

theorem digit_word {cs : Str} {i : Nat} (h : digitAt cs i = true) : wordAt cs i = true := by
  unfold digitAt at h
  unfold wordAt isWordChar
  rcases hc : cs.get? i with _ | c
  · rw [hc] at h
    exact Bool.noConfusion h
  · rw [hc] at h
    dsimp only at h ⊢
    simp only [Char.isAlphanum, Bool.or_eq_true, beq_iff_eq]
    exact Or.inl (Or.inr h)

/-- C9: the matcher's test is exact and bounded: whenever an article
number matches a line, it occurs there not embedded in a longer digit
run; and concretely neither the matcher's search nor the extractor's
pattern lets the identifier 100001 match the seven-digit run 1000011. -/
theorem C9_word_boundary_matching :
    (∀ (num line : Str), reSearchBounded num line = true →
        ∃ i, sub line i num.length = num ∧
          (i = 0 ∨ digitAt line (i - 1) = false) ∧
          digitAt line (i + num.length) = false) ∧
    reSearchBounded "100001".data "1000011".data = false ∧
    findArticleTokens "1000011".data = [] := by
  refine ⟨?_, by decide, by decide⟩
  intro num line h
  unfold reSearchBounded at h
  rw [List.any_eq_true] at h
  obtain ⟨i, _, hb⟩ := h
  unfold boundedAt at hb
  simp only [Bool.and_eq_true, Bool.or_eq_true, beq_iff_eq, Bool.not_eq_true'] at hb
  obtain ⟨⟨hsub, hpre⟩, hpost⟩ := hb
  refine ⟨i, hsub, ?_, ?_⟩
  · rcases hpre with h0 | hw
    · exact Or.inl h0
    · right
      cases hd : digitAt line (i - 1)
      · rfl
      · rw [digit_word hd] at hw
        exact Bool.noConfusion hw
  · cases hd : digitAt line (i + num.length)
    · rfl
    · rw [digit_word hd] at hpost
      exact Bool.noConfusion hpost

/-- C9 (witness): the exactness property applied at a concrete match. -/
theorem C9_word_boundary_matching_witness :
    ∃ i, sub "x 100001".data i ("100001".data).length = "100001".data ∧
      (i = 0 ∨ digitAt "x 100001".data (i - 1) = false) ∧
      digitAt "x 100001".data (i + ("100001".data).length) = false :=
  C9_word_boundary_matching.1 "100001".data "x 100001".data (by decide)

/-- C10: neither the match list nor the report body is deduplicated: a
line text occurring at two places (each occurrence marking a different
identifier found) is recorded twice by the matcher and rendered twice in
the report's matched-lines section. -/
theorem C10_no_deduplication :
    find_matching_descriptions ["100001".data, "100002".data]
        [⟨"a.pdf".data, .ok [.ok ("100001 100002\n  100001 100002  ".data)]⟩]
        "main_pdf.pdf".data =
      .ok (["100001 100002".data, "100001 100002".data],
        ["100001".data, "100002".data]) ∧
    (save_to_pdf ["100001 100002".data, "100001 100002".data]
        ["100001".data, "100002".data] ["100001".data, "100002".data]
        "matched_frames.pdf".data).pdfBody =
      ["100001 100002".data, "100001 100002".data] ∧
    List.count "100001 100002".data
        (save_to_pdf ["100001 100002".data, "100001 100002".data]
          ["100001".data, "100002".data] ["100001".data, "100002".data]
          "matched_frames.pdf".data).pdfBody = 2 := by
  decide

/-! Lemmas about the report builder. -/

theorem mem_matched_numbers_aux (l : List Str) :
    ∀ (acc : List Str) (x : Str),
      x ∈ l.foldl (fun acc line => match searchSixDigit line with
          | some t => setAdd acc t
          | none => acc) acc ↔
        x ∈ acc ∨ x ∈ l.filterMap searchSixDigit := by
  induction l with
  | nil => simp
  | cons hd tl ih =>
    intro acc x
    rw [List.foldl_cons, List.filterMap_cons]
    rcases hsd : searchSixDigit hd with _ | t
    · simp only [hsd]
      exact ih acc x
    · simp only [hsd]
      rw [ih, mem_setAdd, List.mem_cons]
      constructor
      · rintro ((ha | rfl) | htl)
        · exact Or.inl ha
        · exact Or.inr (Or.inl rfl)
        · exact Or.inr (Or.inr htl)
      · rintro (ha | rfl | htl)
        · exact Or.inl (Or.inl ha)
        · exact Or.inl (Or.inr rfl)
        · exact Or.inr htl

theorem mem_matched_numbers {sorted : List Str} {x : Str} :
    x ∈ matched_numbers sorted ↔ x ∈ sorted.filterMap searchSixDigit := by
  unfold matched_numbers
  rw [mem_matched_numbers_aux]
  simp

/-- The global not_found holds exactly the article numbers whose value is
not the first six-digit run of any retained, sorted report line. -/
theorem save_not_found_perm (ms S f : List Str) (p : Str) :
    (save_to_pdf ms S f p).not_found.Perm
      (S.filter (fun x =>
        !decide (x ∈ (sorted_matches ms f).filterMap searchSixDigit))) := by
  have hnf : (save_to_pdf ms S f p).not_found =
      List.insertionSort intLe (S.filter (fun x =>
        !decide (x ∈ matched_numbers (sorted_matches ms f)))) := rfl
  rw [hnf]
  have hfe : S.filter (fun x => !decide (x ∈ matched_numbers (sorted_matches ms f))) =
      S.filter (fun x =>
        !decide (x ∈ (sorted_matches ms f).filterMap searchSixDigit)) := by
    apply List.filter_congr
    intro a _
    rw [decide_eq_decide.mpr mem_matched_numbers]
  rw [hfe]
  exact List.perm_insertionSort intLe _

/-- C2: the unmatched list of the report equals the identifier set minus
the matched-identifier set derived from the sorted retained lines (first
bounded six-digit run per line), arranged ascending by numeric value. -/
theorem C2_unmatched_identifiers :
    ∀ (ms article_numbers found_articles : List Str) (p : Str),
      (save_to_pdf ms article_numbers found_articles p).not_found.Perm
        (article_numbers.filter (fun x =>
          !decide (x ∈ (sorted_matches ms found_articles).filterMap searchSixDigit))) ∧
      (save_to_pdf ms article_numbers found_articles p).not_found.Sorted intLe := by
  intro ms S f p
  refine ⟨save_not_found_perm ms S f p, ?_⟩
  exact List.sorted_insertionSort intLe _

/-- C3: a line is kept in the final report's body only when it came from
the match list and every article token embedded in it is in the found
set; concretely a recorded line holding one found and one unfound article
number is dropped from the report entirely. -/
theorem C3_report_filter :
    (∀ (ms article_numbers found_articles : List Str) (p : Str) (line : Str),
        line ∈ (save_to_pdf ms article_numbers found_articles p).pdfBody →
        line ∈ ms ∧ ∀ t ∈ findArticleTokens line, t ∈ found_articles) ∧
    (save_to_pdf ["100001 100002 widget".data]
        ["100001".data, "100002".data] ["100001".data]
        "matched_frames.pdf".data).pdfBody = [] := by
  refine ⟨?_, by decide⟩
  intro ms S f p line h
  have hb : line ∈ sorted_matches ms f := h
  have hf : line ∈ filtered_matches ms f := by
    simpa [sorted_matches] using hb
  rw [filtered_matches, List.mem_filter] at hf
  refine ⟨hf.1, ?_⟩
  intro t ht
  have hall := hf.2
  rw [List.all_eq_true] at hall
  simpa using hall t ht

/-- C3 (witness): the filter property applied at a concrete report. -/
theorem C3_report_filter_witness :
    "100001 widget".data ∈ (["100001 widget".data] : List Str) ∧
      ∀ t ∈ findArticleTokens "100001 widget".data, t ∈ (["100001".data] : List Str) :=
  C3_report_filter.1 ["100001 widget".data] ["100001".data] ["100001".data]
    "matched_frames.pdf".data "100001 widget".data (by decide)

/-- C6: the report body is a permutation of the filtered matched lines,
arranged ascending by the numeric value of the first bounded six-digit
run of each line, and a line without such a run never precedes a line
with one. -/
theorem C6_report_sorted :
    ∀ (ms article_numbers found_articles : List Str) (p : Str),
      ((save_to_pdf ms article_numbers found_articles p).pdfBody).Perm
        (filtered_matches ms found_articles) ∧
      ((save_to_pdf ms article_numbers found_articles p).pdfBody).Sorted keyLe ∧
      ((save_to_pdf ms article_numbers found_articles p).pdfBody).Pairwise
        (fun a b => get_article_number a = none → get_article_number b = none) := by
  intro ms S f p
  have hbody : (save_to_pdf ms S f p).pdfBody = sorted_matches ms f := rfl
  have hsorted : ((save_to_pdf ms S f p).pdfBody).Sorted keyLe := by
    rw [hbody, sorted_matches]
    exact List.sorted_insertionSort keyLe _
  refine ⟨?_, hsorted, ?_⟩
  · rw [hbody, sorted_matches]
    exact List.perm_insertionSort keyLe _
  · refine hsorted.imp ?_
    intro a b hab ha
    unfold keyLe keyLeB at hab
    rw [ha] at hab
    rcases hk : get_article_number b with _ | m
    · rfl
    · rw [hk] at hab
      exact Bool.noConfusion hab

/-- C5 (counterexample): two report runs with different unmatched lists
return the same value, so the function's return value does not carry the
unmatched list; the list travels through the module global instead. -/
theorem C5_counterexample :
    (save_to_pdf [] ["100001".data] [] "matched_frames.pdf".data).ret =
      (save_to_pdf [] [] [] "matched_frames.pdf".data).ret ∧
    (save_to_pdf [] ["100001".data] [] "matched_frames.pdf".data).not_found ≠
      (save_to_pdf [] [] [] "matched_frames.pdf".data).not_found := by
  decide

/-- C5 (amended): the report builder returns only the output path (the
returned value is the same whatever the matches, identifier set and found
set are), and the computed unmatched list is communicated through the
module global not_found. -/
theorem C5_return_and_global :
    ∀ (ms article_numbers found_articles ms2 article_numbers2 found_articles2 : List Str)
      (p : Str),
      (save_to_pdf ms article_numbers found_articles p).ret = p ∧
      (save_to_pdf ms article_numbers found_articles p).ret =
        (save_to_pdf ms2 article_numbers2 found_articles2 p).ret ∧
      (save_to_pdf ms article_numbers found_articles p).not_found.Perm
        (article_numbers.filter (fun x =>
          !decide (x ∈ (sorted_matches ms found_articles).filterMap searchSixDigit))) := by
  intro ms S f ms2 S2 f2 p
  exact ⟨rfl, rfl, save_not_found_perm ms S f p⟩

/-! Lemmas about the extractor. -/

theorem extractText_nil (acc : List Str) : extractText acc [] = acc := by
  unfold extractText
  simp [splitLines, extractLine, findArticleTokens, setUpdate]

theorem extractPages_map_ok (texts : List Str) :
    ∀ acc, extractPages acc (texts.map Except.ok) = .ok (texts.foldl extractText acc) := by
  induction texts with
  | nil => intro acc; rfl
  | cons t rest ih =>
    intro acc
    simp only [List.map_cons, extractPages, List.foldl_cons]
    split
    · rename_i hemp
      have ht : t = [] := by simpa using hemp
      rw [ih, ht, extractText_nil]
    · exact ih _

theorem mem_foldl_extractLine (lines : List Str) :
    ∀ (acc : List Str) (x : Str),
      x ∈ lines.foldl extractLine acc ↔
        x ∈ acc ∨ ∃ l ∈ lines, x ∈ findArticleTokens l := by
  induction lines with
  | nil => simp
  | cons l rest ih =>
    intro acc x
    rw [List.foldl_cons, ih]
    unfold extractLine
    rw [mem_setUpdate]
    constructor
    · rintro ((ha | ht) | ⟨l2, hl2, ht⟩)
      · exact Or.inl ha
      · exact Or.inr ⟨l, List.mem_cons_self _ _, ht⟩
      · exact Or.inr ⟨l2, List.mem_cons_of_mem _ hl2, ht⟩
    · rintro (ha | ⟨l2, hl2, ht⟩)
      · exact Or.inl (Or.inl ha)
      · rcases List.mem_cons.mp hl2 with rfl | hr
        · exact Or.inl (Or.inr ht)
        · exact Or.inr ⟨l2, hr, ht⟩

theorem mem_foldl_extractText (texts : List Str) :
    ∀ (acc : List Str) (x : Str),
      x ∈ texts.foldl extractText acc ↔
        x ∈ acc ∨ ∃ t ∈ texts, ∃ l ∈ splitLines t, x ∈ findArticleTokens l := by
  induction texts with
  | nil => simp
  | cons t rest ih =>
    intro acc x
    rw [List.foldl_cons, ih]
    have hx : x ∈ extractText acc t ↔
        x ∈ acc ∨ ∃ l ∈ splitLines t, x ∈ findArticleTokens l :=
      mem_foldl_extractLine (splitLines t) acc x
    rw [hx]
    constructor
    · rintro ((ha | ⟨l, hl, htk⟩) | ⟨t2, ht2, hrest⟩)
      · exact Or.inl ha
      · exact Or.inr ⟨t, List.mem_cons_self _ _, l, hl, htk⟩
      · exact Or.inr ⟨t2, List.mem_cons_of_mem _ ht2, hrest⟩
    · rintro (ha | ⟨t2, ht2, hrest⟩)
      · exact Or.inl (Or.inl ha)
      · rcases List.mem_cons.mp ht2 with rfl | hr
        · exact Or.inl (Or.inr hrest)
        · exact Or.inr ⟨t2, hr, hrest⟩

theorem nodup_foldl_extractLine (lines : List Str) :
    ∀ {acc : List Str}, acc.Nodup → (lines.foldl extractLine acc).Nodup := by
  induction lines with
  | nil => exact fun h => h
  | cons l rest ih =>
    intro acc h
    rw [List.foldl_cons]
    exact ih (nodup_setUpdate h _)

theorem nodup_foldl_extractText (texts : List Str) :
    ∀ {acc : List Str}, acc.Nodup → (texts.foldl extractText acc).Nodup := by
  induction texts with
  | nil => exact fun h => h
  | cons t rest ih =>
    intro acc h
    rw [List.foldl_cons]
    exact ih (nodup_foldl_extractLine (splitLines t) h)

theorem findArticleTokens_shape {cs t : Str} (h : t ∈ findArticleTokens cs) :
    t.length = 6 ∧ t.head? = some '1' ∧ ∀ c ∈ t, c.isDigit = true := by
  unfold findArticleTokens at h
  rw [List.mem_map] at h
  obtain ⟨i, hi, ht⟩ := h
  rw [List.mem_filter] at hi
  have ha := hi.2
  unfold articleAt at ha
  subst ht
  generalize hu : sub cs i 6 = u at ha ⊢
  rcases u with _ | ⟨c0, _ | ⟨c1, _ | ⟨c2, _ | ⟨c3, _ | ⟨c4, _ | ⟨c5, _ | ⟨c6, u⟩⟩⟩⟩⟩⟩⟩
  · exact absurd ha (by simp)
  · exact absurd ha (by simp)
  · exact absurd ha (by simp)
  · exact absurd ha (by simp)
  · exact absurd ha (by simp)
  · exact absurd ha (by simp)
  · dsimp only at ha
    simp only [Bool.and_eq_true, beq_iff_eq, and_assoc] at ha
    obtain ⟨h0, h1, h2, h3, h4, h5, -, -⟩ := ha
    refine ⟨rfl, ?_, ?_⟩
    · simp [h0]
    · intro c hc
      simp only [List.mem_cons, List.not_mem_nil, or_false] at hc
      rcases hc with rfl | rfl | rfl | rfl | rfl | rfl
      · rw [h0]
        decide
      · exact h1
      · exact h2
      · exact h3
      · exact h4
      · exact h5
  · exact absurd ha (by simp)

/-- C7 (counterexample): under the claim's non-digit-boundary reading the
line a100001 contains the token 100001 (the letter a is not a digit), but
the source's word-boundary pattern extracts nothing from that line. -/
theorem C7_counterexample :
    extract_article_numbers (.ok [.ok "a100001".data]) = .ok [] ∧
    claimTokens "a100001".data = ["100001".data] := by
  decide

/-- C7 (amended): on readable pages the extractor returns exactly the set
of tokens of the word-bounded pattern (the digit 1 and five more digits,
not flanked by a letter, digit or underscore) over all lines of all
pages, without duplicates; every element is a six-character digit string
beginning with 1. -/
theorem C7_extractor_characterization :
    ∀ (texts : List Str),
      extract_article_numbers (.ok (texts.map Except.ok)) =
        .ok (texts.foldl extractText []) ∧
      (texts.foldl extractText []).Nodup ∧
      (∀ t ∈ texts.foldl extractText [],
        t.length = 6 ∧ t.head? = some '1' ∧ ∀ c ∈ t, c.isDigit = true) ∧
      (∀ t, t ∈ texts.foldl extractText [] ↔
        ∃ tx ∈ texts, ∃ l ∈ splitLines tx, t ∈ findArticleTokens l) := by
  intro texts
  refine ⟨extractPages_map_ok texts [], nodup_foldl_extractText texts List.nodup_nil,
    ?_, ?_⟩
  · intro t ht
    rcases (mem_foldl_extractText texts [] t).mp ht with h | ⟨tx, htx, l, hl, htk⟩
    · exact absurd h (List.not_mem_nil t)
    · exact findArticleTokens_shape htk
  · intro t
    rw [mem_foldl_extractText]
    simp

/-- C7 (witness): the characterization applied at a concrete document. -/
theorem C7_extractor_characterization_witness :
    extract_article_numbers (.ok (["ab 100001 cd".data].map Except.ok)) =
      .ok (["ab 100001 cd".data].foldl extractText []) ∧
    "100001".data ∈ (["ab 100001 cd".data].foldl extractText []) := by
  constructor
  · exact (C7_extractor_characterization ["ab 100001 cd".data]).1
  · rw [(C7_extractor_characterization ["ab 100001 cd".data]).2.2.2 "100001".data]
    decide

/-- C4 (counterexample): for the same identifier set iterated in two
different orders over the same folder, the pipeline produces different
report bodies and different unmatched lists, because a line holding two
identifiers marks a different one found depending on the order. -/
theorem C4_counterexample :
    (["100001".data, "100002".data] : List Str).Perm
      ["100002".data, "100001".data] ∧
    (pipeline ["100001".data, "100002".data]
        [⟨"a.pdf".data, .ok [.ok ("100001 100002\n100001".data)]⟩]
        "main_pdf.pdf".data "matched_frames.pdf".data).map
      (fun r => (r.pdfBody, r.not_found)) =
      .ok ([], ["100001".data, "100002".data]) ∧
    (pipeline ["100002".data, "100001".data]
        [⟨"a.pdf".data, .ok [.ok ("100001 100002\n100001".data)]⟩]
        "main_pdf.pdf".data "matched_frames.pdf".data).map
      (fun r => (r.pdfBody, r.not_found)) =
      .ok (["100001 100002".data, "100001".data], ["100002".data]) := by
  decide

/-! Order-independence of the scan when no line holds two identifiers. -/

theorem perm_filter_eq_of_le_one {l l2 : List Str} (p : Str → Bool) (hp : l.Perm l2)
    (hlen : (l.filter p).length ≤ 1) : l.filter p = l2.filter p := by
  have hperm := hp.filter p
  rcases hf : l.filter p with _ | ⟨a, rest⟩
  · rw [hf] at hperm
    rw [hperm.symm.eq_nil]
  · rw [hf] at hperm hlen
    have hrest : rest = [] := by
      simp only [List.length_cons] at hlen
      exact List.eq_nil_of_length_eq_zero (by omega)
    subst hrest
    exact (List.perm_singleton.mp hperm.symm).symm

theorem length_filter_and_le (p q : Str → Bool) (L : List Str) :
    (L.filter (fun n => p n && q n)).length ≤ (L.filter q).length := by
  induction L with
  | nil => simp
  | cons a L ih =>
    by_cases hq : q a = true
    · by_cases hpa : p a = true
      · simp only [List.filter_cons, hpa, hq, Bool.and_self, Bool.true_and,
          if_pos, List.length_cons]
        omega
      · simp only [List.filter_cons, hpa, hq, Bool.false_and, Bool.and_true,
          if_pos, List.length_cons]
        simp only [if_neg (by simp : ¬(false = true))]
        omega
    · have hq2 : q a = false := by
        cases hqa : q a
        · rfl
        · exact absurd hqa hq
      simp only [List.filter_cons, hq2, Bool.and_false]
      simp only [if_neg (by simp : ¬(false = true))]
      exact ih

theorem scanLineNums_perm (line : Str) (s : ScanState) {l l2 : List Str}
    (hp : l.Perm l2)
    (hone : (l.filter (fun n => reSearchBounded n line)).length ≤ 1) :
    scanLineNums line s l = scanLineNums line s l2 := by
  rw [scanLineNums_eq, scanLineNums_eq]
  have hfeq : l.filter (fun n => !decide (n ∈ s.found) && reSearchBounded n line) =
      l2.filter (fun n => !decide (n ∈ s.found) && reSearchBounded n line) := by
    apply perm_filter_eq_of_le_one _ hp
    exact le_trans
      (length_filter_and_le (fun n => !decide (n ∈ s.found))
        (fun n => reSearchBounded n line) l) hone
  rw [hfeq]

theorem scanLines_perm (total : Nat) {l l2 : List Str} (hp : l.Perm l2) :
    ∀ (lines : List Str) (s : ScanState),
      (∀ line ∈ lines, (l.filter (fun n => reSearchBounded n line)).length ≤ 1) →
      scanLines l total s lines = scanLines l2 total s lines := by
  intro lines
  induction lines with
  | nil => intro s _; rfl
  | cons line rest ih =>
    intro s h
    have heq := scanLineNums_perm line s hp (h line (List.mem_cons_self _ _))
    simp only [scanLines, heq]
    split
    · rfl
    · exact ih _ (fun x hx => h x (List.mem_cons_of_mem _ hx))

theorem scanPages_perm (total : Nat) {l l2 : List Str} (hp : l.Perm l2) :
    ∀ (pages : List Page) (s : ScanState),
      (∀ line ∈ (pages.map pageLines).flatten,
        (l.filter (fun n => reSearchBounded n line)).length ≤ 1) →
      scanPages l total s pages = scanPages l2 total s pages := by
  intro pages
  induction pages with
  | nil => intro s _; rfl
  | cons p rest ih =>
    intro s h
    simp only [List.map_cons, List.flatten_cons, List.mem_append] at h
    match p with
    | .error e => rfl
    | .ok t =>
      have hlines : ∀ line ∈ splitLines t,
          (l.filter (fun n => reSearchBounded n line)).length ≤ 1 := by
        intro line hl
        exact h line (Or.inl hl)
      have hrest : ∀ line ∈ (rest.map pageLines).flatten,
          (l.filter (fun n => reSearchBounded n line)).length ≤ 1 := by
        intro line hl
        exact h line (Or.inr hl)
      simp only [scanPages]
      split
      · exact ih s hrest
      · rw [scanLines_perm total hp (splitLines t) s hlines]
        exact ih _ hrest

theorem scanDocs_perm (total : Nat) (source : Str) {l l2 : List Str} (hp : l.Perm l2) :
    ∀ (folder : List PdfFile) (s : ScanState),
      (∀ line ∈ folderLines folder,
        (l.filter (fun n => reSearchBounded n line)).length ≤ 1) →
      scanDocs l total source s folder = scanDocs l2 total source s folder := by
  intro folder
  induction folder with
  | nil => intro s _; rfl
  | cons d rest ih =>
    intro s h
    simp only [folderLines, List.map_cons, List.flatten_cons, List.mem_append] at h
    have hfile : ∀ line ∈ fileLines d,
        (l.filter (fun n => reSearchBounded n line)).length ≤ 1 :=
      fun line hl => h line (Or.inl hl)
    have hrest : ∀ line ∈ folderLines rest,
        (l.filter (fun n => reSearchBounded n line)).length ≤ 1 := by
      intro line hl
      refine h line (Or.inr ?_)
      simpa [folderLines] using hl
    simp only [scanDocs]
    by_cases hcand : isCandidate d.name source = true
    · simp only [if_pos hcand]
      rcases hc : d.content with e | pages
      · rfl
      · dsimp only
        have hflines : ∀ line ∈ (pages.map pageLines).flatten,
            (l.filter (fun n => reSearchBounded n line)).length ≤ 1 := by
          intro line hl
          apply hfile
          unfold fileLines
          rw [hc]
          exact hl
        rw [scanPages_perm total hp pages s hflines]
        rcases hp2 : scanPages l2 total s pages with e | sp
        · rfl
        · by_cases hsp : sp.found.length = total
          · simp only [if_pos hsp]
          · simp only [if_neg hsp]
            exact ih sp hrest
    · simp only [if_neg hcand]
      exact ih s hrest

/-- The matcher gives the same result for any two iteration orders of the
identifier set, as long as no scanned line can match two identifiers. -/
theorem find_matching_descriptions_perm {l l2 : List Str} (hp : l.Perm l2)
    (folder : List PdfFile) (source : Str)
    (h : ∀ line ∈ folderLines folder,
      (l.filter (fun n => reSearchBounded n line)).length ≤ 1) :
    find_matching_descriptions l folder source =
      find_matching_descriptions l2 folder source := by
  unfold find_matching_descriptions
  rw [hp.length_eq]
  rw [scanDocs_perm l2.length source hp folder _ h]

theorem insertionSort_intLe_eq_of_perm {L L2 : List Str} (hperm : L.Perm L2)
    (hinj : ∀ a ∈ L, ∀ b ∈ L, strToNat a = strToNat b → a = b) :
    List.insertionSort intLe L = List.insertionSort intLe L2 := by
  have hsortedLt : ∀ (M : List Str), (∀ a ∈ M, ∀ b ∈ M, strToNat a = strToNat b → a = b) →
      (List.insertionSort intLe M).Sorted intLt' := by
    intro M hM
    have hs := List.sorted_insertionSort intLe M
    refine hs.imp_of_mem ?_
    intro a b ha hb hab
    have haM : a ∈ M := by simpa using ha
    have hbM : b ∈ M := by simpa using hb
    by_cases heq : strToNat a = strToNat b
    · exact Or.inr (hM a haM b hbM heq)
    · exact Or.inl (lt_of_le_of_ne hab heq)
  have hinj2 : ∀ a ∈ L2, ∀ b ∈ L2, strToNat a = strToNat b → a = b := by
    intro a ha b hb
    exact hinj a (hperm.mem_iff.mpr ha) b (hperm.mem_iff.mpr hb)
  exact List.eq_of_perm_of_sorted
    ((List.perm_insertionSort intLe L).trans
      (hperm.trans (List.perm_insertionSort intLe L2).symm))
    (hsortedLt L hinj) (hsortedLt L2 hinj2)

theorem save_to_pdf_perm {S S2 : List Str} (hperm : S.Perm S2) (ms f : List Str)
    (p : Str) (hinj : ∀ a ∈ S, ∀ b ∈ S, strToNat a = strToNat b → a = b) :
    save_to_pdf ms S f p = save_to_pdf ms S2 f p := by
  have hnf : List.insertionSort intLe (S.filter (fun x =>
        !decide (x ∈ matched_numbers (sorted_matches ms f)))) =
      List.insertionSort intLe (S2.filter (fun x =>
        !decide (x ∈ matched_numbers (sorted_matches ms f)))) := by
    apply insertionSort_intLe_eq_of_perm (hperm.filter _)
    intro a ha b hb
    exact hinj a (List.mem_of_mem_filter ha) b (List.mem_of_mem_filter hb)
  simp only [save_to_pdf, hnf]

/-- C4 (amended): the pipeline is a deterministic function of the
document texts, the identifier set and the set's iteration order; two
admissible iteration orders of the same identifier set give the same
matched lines and the same unmatched list whenever no line of the folder
can match more than one identifier of the set and distinct identifiers
have distinct numeric values, but not in general (see the
counterexample). -/
theorem C4_order_independence :
    ∀ (order order2 : List Str) (folder : List PdfFile) (source p : Str),
      order.Perm order2 →
      (∀ line ∈ folderLines folder,
        (order.filter (fun n => reSearchBounded n line)).length ≤ 1) →
      (∀ a ∈ order, ∀ b ∈ order, strToNat a = strToNat b → a = b) →
      pipeline order folder source p = pipeline order2 folder source p := by
  intro order order2 folder source p hp hone hinj
  unfold pipeline
  rw [find_matching_descriptions_perm hp folder source hone]
  rcases hr : find_matching_descriptions order2 folder source with e | mf
  · rfl
  · obtain ⟨m, f⟩ := mf
    exact congrArg Except.ok (save_to_pdf_perm hp m f p hinj)

/-- C4 (witness): two orders of the same set over a folder where every
line holds one identifier give the same report. -/
theorem C4_order_independence_witness :
    pipeline ["100001".data, "100002".data]
        [⟨"a.pdf".data, .ok [.ok "100001 Widget".data]⟩,
          ⟨"b.pdf".data, .ok [.ok "100002 Gadget".data]⟩]
        "main_pdf.pdf".data "matched_frames.pdf".data =
      pipeline ["100002".data, "100001".data]
        [⟨"a.pdf".data, .ok [.ok "100001 Widget".data]⟩,
          ⟨"b.pdf".data, .ok [.ok "100002 Gadget".data]⟩]
        "main_pdf.pdf".data "matched_frames.pdf".data :=
  C4_order_independence ["100001".data, "100002".data]
    ["100002".data, "100001".data]
    [⟨"a.pdf".data, .ok [.ok "100001 Widget".data]⟩,
      ⟨"b.pdf".data, .ok [.ok "100002 Gadget".data]⟩]
    "main_pdf.pdf".data "matched_frames.pdf".data
    (by decide) (by decide) (by decide)

end WhatPy
